import Mathlib

/-!
Shallow embedding of the `sniper` auction-bidding agent
(`src/service/bidding_engine.rs`, `src/service.rs`).

The auction domain primitives (`BidDetails::is_outbidded_by`,
`BidDetails::next_valid_bid`) live in `src/auction.rs`, which the spec treats
as a given primitive of the domain model; the development is parametrized over
them (arguments named `iob` and `nvb`), so every theorem holds for every
choice of the bid-policy primitives.
-/

namespace Sniper

/-- Modelled from the spec: `Amount` (src/auction.rs is not in scope),
a non-negative integral currency unit. -/
abbrev Amount : Type := Nat

/-- Modelled from the spec: `ItemId` (src/auction.rs is not in scope),
the identifier of an auction. -/
abbrev ItemId : Type := String

/-- Modelled from the spec: `Bidder` (src/auction.rs is not in scope), an
enumeration distinguishing the agent itself (`Sniper`) from any other
bidder. -/
inductive Bidder where
  | Sniper : Bidder
  | Other : Bidder
deriving DecidableEq

/-- Modelled from the spec: `BidDetails` (src/auction.rs is not in scope),
a bidder together with a price. Its domain rules `is_outbidded_by` and
`next_valid_bid` are kept abstract (parameters `iob`, `nvb` below). -/
structure BidDetails where
  bidder : Bidder
  price : Amount
deriving DecidableEq

/-- Modelled from the spec: `ItemBid` (src/auction.rs is not in scope), an
intent to place a bid on an item. -/
structure ItemBid where
  item : ItemId
  price : Amount
deriving DecidableEq

namespace auction_house

/-- Modelled from the spec: `service::auction_house::EventDetails`
(the auction-house module is not in scope); the match in
`AuctionState::handle_auction_event` shows exactly the variants
`Bid(BidDetails)` and `Closed`. -/
inductive EventDetails where
  | Bid : BidDetails → EventDetails
  | Closed : EventDetails
deriving DecidableEq

end auction_house

/-- Embeds `UserError` from src/service/bidding_engine.rs: rejection taxonomy for
invalid user-submitted max-bid changes. -/
inductive UserError where
  | AlreadyClosed : UserError
  | TooLow : UserError
deriving DecidableEq

/-- Embeds `AuctionError` from src/service/bidding_engine.rs. -/
inductive AuctionError where
  | UnknownAuction : ItemId → AuctionError
deriving DecidableEq

/-- Embeds `Event` from src/service/bidding_engine.rs: events emitted by the
bidding engine. -/
inductive Event where
  | Bid : ItemBid → Event
  | AuctionError : AuctionError → Event
  | UserError : UserError → Event
deriving DecidableEq

/-- Embeds `AuctionState` from src/service/bidding_engine.rs (the field name
`higest_bid` keeps the source's spelling). -/
structure AuctionState where
  higest_bid : Option BidDetails
  closed : Bool
deriving DecidableEq

/-- Embeds `#[derive(Default)]` for `AuctionState`: no highest bid, not closed. -/
def AuctionState.default : AuctionState :=
  { higest_bid := none, closed := false }

/-- Embeds `AuctionState::handle_auction_event` from src/service/bidding_engine.rs,
parametrized by the `is_outbidded_by` primitive `iob`. -/
def AuctionState.handle_auction_event (iob : BidDetails → Amount → Bool)
    (s : AuctionState) (event : auction_house.EventDetails) : AuctionState :=
  match event with
  | auction_house.EventDetails.Bid bid =>
      if !s.closed
          && (match s.higest_bid with
              | some highest => iob highest bid.price
              | none => true) then
        { s with higest_bid := some bid }
      else
        s
  | auction_house.EventDetails.Closed =>
      { s with closed := true }

/-- Embeds `AuctionState::get_next_bid` from src/service/bidding_engine.rs,
parametrized by the `next_valid_bid` primitive `nvb`. -/
def AuctionState.get_next_bid (nvb : BidDetails → Amount)
    (s : AuctionState) (max_price : Amount) : Option Amount :=
  if s.closed then
    none
  else
    match s.higest_bid with
    | none => some 0
    | some highest_bid =>
        if highest_bid.bidder = Bidder.Sniper then
          none
        else
          let outbid_price := nvb highest_bid
          if outbid_price ≤ max_price then some outbid_price else none

/-- Embeds `AuctionBiddingState` from src/service/bidding_engine.rs. -/
structure AuctionBiddingState where
  max_bid : Amount
  state : AuctionState
deriving DecidableEq

/-- Embeds `#[derive(Default)]` for `AuctionBiddingState`. -/
def AuctionBiddingState.default : AuctionBiddingState :=
  { max_bid := 0, state := AuctionState.default }

/-- Embeds `AuctionBiddingState::handle_auction_house_event` from
src/service/bidding_engine.rs. -/
def AuctionBiddingState.handle_auction_house_event
    (iob : BidDetails → Amount → Bool) (s : AuctionBiddingState)
    (event : auction_house.EventDetails) : AuctionBiddingState :=
  { max_bid := s.max_bid, state := s.state.handle_auction_event iob event }

/-- Embeds `AuctionBiddingState::handle_new_max_bid` from
src/service/bidding_engine.rs. -/
def AuctionBiddingState.handle_new_max_bid (s : AuctionBiddingState)
    (max_bid : Amount) : AuctionBiddingState :=
  { s with max_bid := max_bid }

namespace BiddingEngine

/-- Embeds `BiddingEngine::handle_auction_house_event` from
src/service/bidding_engine.rs (the Rust function wraps the result in `Ok`
unconditionally, so the embedding returns the pair directly). -/
def handle_auction_house_event (iob : BidDetails → Amount → Bool)
    (nvb : BidDetails → Amount) (item_id : ItemId)
    (old_state : Option AuctionBiddingState)
    (event : auction_house.EventDetails) :
    Option AuctionBiddingState × List Event :=
  match old_state with
  | some auction_state =>
      let new_state := auction_state.handle_auction_house_event iob event
      if new_state ≠ auction_state then
        (some new_state,
          ((new_state.state.get_next_bid nvb new_state.max_bid).map
            (fun our_bid =>
              Event.Bid { item := item_id, price := our_bid })).toList)
      else
        (none, [])
  | none =>
      (none, [Event.AuctionError (AuctionError.UnknownAuction item_id)])

/-- Embeds `BiddingEngine::handle_max_bid_event` from
src/service/bidding_engine.rs (likewise unconditionally `Ok` in Rust). -/
def handle_max_bid_event (nvb : BidDetails → Amount) (item_id : ItemId)
    (old_state : Option AuctionBiddingState) (price : Amount) :
    Option AuctionBiddingState × List Event :=
  let auction_state := old_state.getD AuctionBiddingState.default
  let new_state := auction_state.handle_new_max_bid price
  if new_state ≠ auction_state
      ∧ ((new_state.state.higest_bid.map
            (fun bid => decide (bid.bidder ≠ Bidder.Sniper))).getD true
          = true) then
    (some new_state,
      ((new_state.state.get_next_bid nvb new_state.max_bid).map
        (fun our_bid =>
          Event.Bid { item := item_id, price := our_bid })).toList)
  else
    (none, [])

end BiddingEngine

namespace ui

/-- Modelled from the spec: `service::ui::Event` (the ui module is not in
scope); its only wire category consumed by this core is
`MaxBidSet(ItemBid)`. -/
inductive Event where
  | MaxBidSet : ItemBid → Event
deriving DecidableEq

end ui

namespace event_log

/-- Modelled from the spec: `event_log::EventDetails` (src/event_log.rs is
not in scope); the wire categories consumed or produced by this core are
`AuctionHouse{item_id, auction-house event}`, `Ui{MaxBidSet(ItemBid)}`, and
`BiddingEngine(engine event)`. -/
inductive EventDetails where
  | AuctionHouse : ItemId → auction_house.EventDetails → EventDetails
  | Ui : ui.Event → EventDetails
  | BiddingEngine : Event → EventDetails
deriving DecidableEq

end event_log

/-- Modelled from the spec: `Offset` (src/event_log.rs is not in scope), an
opaque totally ordered log position with no arithmetic semantics; embedded
as a natural number. -/
abbrev Offset : Type := Nat

/-- Embeds `ServiceId` from src/service.rs. -/
abbrev ServiceId : Type := String

/-- Modelled from the spec: one record of the event log as returned by
`read` — an offset (`event.id` in src/service.rs) paired with its
`EventDetails`. -/
structure EventRecord where
  id : Offset
  details : event_log.EventDetails
deriving DecidableEq

/-- The progress-tracker store of the in-memory backend
(src/progress/in_memory.rs): a map `ServiceId -> Offset`, embedded as an
association list; `store` overwrites the entry for the service id. -/
abbrev ProgressMap : Type := List (ServiceId × Offset)

/-- Embeds `InMemoryProgressTracker::store_tr` (src/progress/in_memory.rs):
`BTreeMap::insert`, overwriting any previous entry for the id. -/
def progressStore (id : ServiceId) (off : Offset) (m : ProgressMap) :
    ProgressMap :=
  (id, off) :: m.filter (fun p => p.1 ≠ id)

/-- One iteration of the loop body built by
`ServiceControl::spawn_event_loop` (src/service.rs, lines 69-80): for each
event of the batch returned by `read`, call the handler `f`; on error stop
and return the error, leaving the in-memory cursor and the stored progress
as they were; on success advance the in-memory cursor to the event's offset
and persist it. Returns (error if any, in-memory cursor, progress store). -/
def spawnEventLoopBody {ε : Type} (f : event_log.EventDetails → Except ε Unit)
    (service_id : ServiceId) :
    List EventRecord → Option Offset → ProgressMap →
      Option ε × Option Offset × ProgressMap
  | [], progress, store => (none, progress, store)
  | e :: rest, progress, store =>
      match f e.details with
      | Except.error err => (some err, progress, store)
      | Except.ok _ =>
          spawnEventLoopBody f service_id rest (some e.id)
            (progressStore service_id e.id store)

/-- The bidding-state store of the in-memory backend
(`InMemoryBiddingStateStore`, src/service/bidding_engine.rs): a map
`ItemId -> AuctionBiddingState`, embedded as an association list. -/
abbrev BiddingStateMap : Type := List (ItemId × AuctionBiddingState)

/-- Embeds `InMemoryBiddingStateStore::load_tr`: `BTreeMap::get`. -/
def biddingStateLoad (m : BiddingStateMap) (item_id : ItemId) :
    Option AuctionBiddingState :=
  (m.find? (fun p => p.1 = item_id)).map (fun p => p.2)

/-- Embeds `InMemoryBiddingStateStore::store_tr`: `BTreeMap::insert`, overwriting
any previous entry for the item. -/
def biddingStateStore (item_id : ItemId) (s : AuctionBiddingState)
    (m : BiddingStateMap) : BiddingStateMap :=
  (item_id, s) :: m.filter (fun p => p.1 ≠ item_id)

/-- The observable effects of one transaction of the bidding engine: the
bidding-state store, the events appended to the log by `write_tr`, and an
instrumentation trace of every `load_tr` performed, so that "performs no
reads" is expressible. -/
structure TxState where
  store : BiddingStateMap
  log : List event_log.EventDetails
  reads : List ItemId
deriving DecidableEq

namespace BiddingEngine

/-- Embeds `BiddingEngine::handle_event_with` from src/service/bidding_engine.rs:
load the item's state, run the pure transition `f`, store the new state when
one is produced, and write the emitted events (wrapped in
`EventDetails::BiddingEngine`) to the log. -/
def handle_event_with (tr : TxState) (item_id : ItemId)
    (f : Option AuctionBiddingState → Option AuctionBiddingState × List Event) :
    TxState :=
  let auction_state := biddingStateLoad tr.store item_id
  let tr1 : TxState := { tr with reads := tr.reads ++ [item_id] }
  let r := f auction_state
  let tr2 : TxState :=
    match r.1 with
    | some new_state =>
        { tr1 with store := biddingStateStore item_id new_state tr1.store }
    | none => tr1
  { tr2 with
    log := tr2.log ++ r.2.map (fun e => event_log.EventDetails.BiddingEngine e) }

/-- Embeds `BiddingEngine::handle_event` from src/service/bidding_engine.rs
(the `LogFollowerService` impl): dispatch `AuctionHouse` events and
`Ui::MaxBidSet` events to the corresponding pure transition via
`handle_event_with`; every other event kind falls into the `_ => ()` arm
and does nothing. -/
def handle_event (iob : BidDetails → Amount → Bool)
    (nvb : BidDetails → Amount) (tr : TxState)
    (event : event_log.EventDetails) : TxState :=
  match event with
  | event_log.EventDetails.AuctionHouse item ev =>
      handle_event_with tr item
        (fun old_state => handle_auction_house_event iob nvb item old_state ev)
  | event_log.EventDetails.Ui (ui.Event.MaxBidSet item_bid) =>
      handle_event_with tr item_bid.item
        (fun old_state => handle_max_bid_event nvb item_bid.item old_state
          item_bid.price)
  | _ => tr

/-- The stored state for an item after one call of a pure transition whose
first component is the state to persist (`if let Some(new_state) = new_state
{ store_tr(...) }` in `handle_event_with`): the new state when one is
returned, otherwise the state already stored. -/
def storedAfter (old_state : Option AuctionBiddingState)
    (r : Option AuctionBiddingState × List Event) :
    Option AuctionBiddingState :=
  match r.1 with
  | some new_state => some new_state
  | none => old_state

end BiddingEngine

/-! Concrete instantiations of the abstract bid-policy primitives, used only
to evaluate witnesses: a bid is outbid by any strictly greater price, and
the next valid bid is one unit above the current one (the increment used in
the spec's worked example). -/

/-- A concrete `is_outbidded_by` for witnesses: strictly greater price. -/
def iob0 : BidDetails → Amount → Bool := fun hb p => decide (hb.price < p)

/-- A concrete `next_valid_bid` for witnesses: one above the current price. -/
def nvb0 : BidDetails → Amount := fun hb => hb.price + 1

/-- A concrete item identifier for witnesses. -/
def itemA : ItemId := "A1"

/- ## Theorems -/

/-- C2: `get_next_bid(s, max_price)` returns `none` if `s` is closed;
`some 0` if `s` is open with no highest bid; `none` if the highest bidder is
`Sniper`; and otherwise, with `outbid_price` the next valid bid over the
highest bid, `some outbid_price` exactly when `outbid_price ≤ max_price`. -/
theorem get_next_bid_spec (nvb : BidDetails → Amount) (s : AuctionState)
    (max_price : Amount) :
    (s.closed = true → s.get_next_bid nvb max_price = none) ∧
    (s.closed = false → s.higest_bid = none →
      s.get_next_bid nvb max_price = some 0) ∧
    (∀ hb, s.closed = false → s.higest_bid = some hb →
      hb.bidder = Bidder.Sniper → s.get_next_bid nvb max_price = none) ∧
    (∀ hb, s.closed = false → s.higest_bid = some hb →
      hb.bidder ≠ Bidder.Sniper →
      s.get_next_bid nvb max_price =
        if nvb hb ≤ max_price then some (nvb hb) else none) := by
  refine ⟨?_, ?_, ?_, ?_⟩ <;> intros <;>
    simp_all [AuctionState.get_next_bid]

/-- Witness for C2: with the highest bid at price 5 by another bidder and a
ceiling of 10, the engine offers the next valid bid 6. -/
theorem get_next_bid_spec_witness :
    AuctionState.get_next_bid nvb0
        { higest_bid := some { bidder := Bidder.Other, price := 5 },
          closed := false } 10
      = if nvb0 { bidder := Bidder.Other, price := 5 } ≤ 10
        then some (nvb0 { bidder := Bidder.Other, price := 5 }) else none :=
  (get_next_bid_spec nvb0
      { higest_bid := some { bidder := Bidder.Other, price := 5 },
        closed := false } 10).2.2.2
    { bidder := Bidder.Other, price := 5 } rfl rfl (by decide)

/-- C3: `handle_auction_event` sets `closed := true` on a `Closed` event
regardless of the previous value; a `Bid` event is ignored when the auction
is closed, and otherwise replaces the highest bid exactly when there is no
current highest bid or the current one is outbid by the new price. -/
theorem handle_auction_event_spec (iob : BidDetails → Amount → Bool)
    (s : AuctionState) (b : BidDetails) :
    (s.handle_auction_event iob auction_house.EventDetails.Closed
      = { s with closed := true }) ∧
    (s.closed = true →
      s.handle_auction_event iob (auction_house.EventDetails.Bid b) = s) ∧
    (s.closed = false →
      s.handle_auction_event iob (auction_house.EventDetails.Bid b)
        = if (match s.higest_bid with
              | some highest => iob highest b.price
              | none => true) = true
          then { s with higest_bid := some b }
          else s) := by
  refine ⟨rfl, ?_, ?_⟩ <;> intro hc <;>
    simp [AuctionState.handle_auction_event, hc]

/-- Witness for C3: an open auction with no highest bid accepts the bid. -/
theorem handle_auction_event_spec_witness :
    AuctionState.handle_auction_event iob0
        { higest_bid := none, closed := false }
        (auction_house.EventDetails.Bid { bidder := Bidder.Other, price := 3 })
      = if (match (none : Option BidDetails) with
            | some highest => iob0 highest 3
            | none => true) = true
        then { higest_bid := some { bidder := Bidder.Other, price := 3 },
               closed := false }
        else { higest_bid := none, closed := false } :=
  (handle_auction_event_spec iob0 { higest_bid := none, closed := false }
      { bidder := Bidder.Other, price := 3 }).2.2 rfl

/-- C1: `handle_auction_house_event` on an absent state emits exactly one
`UnknownAuction` error and persists nothing; on a present state `s` it
persists the transitioned state `s'` exactly when `s' ≠ s`, emitting one
`Bid` at the price given by `get_next_bid` when there is one and nothing
otherwise, and returns `(none, [])` when `s' = s`. -/
theorem handle_auction_house_event_spec (iob : BidDetails → Amount → Bool)
    (nvb : BidDetails → Amount) (item_id : ItemId)
    (event : auction_house.EventDetails) :
    (BiddingEngine.handle_auction_house_event iob nvb item_id none event
      = (none, [Event.AuctionError (AuctionError.UnknownAuction item_id)])) ∧
    (∀ s : AuctionBiddingState,
      (s.handle_auction_house_event iob event ≠ s →
        BiddingEngine.handle_auction_house_event iob nvb item_id (some s) event
          = (some (s.handle_auction_house_event iob event),
             match (s.handle_auction_house_event iob event).state.get_next_bid
                 nvb (s.handle_auction_house_event iob event).max_bid with
             | some price => [Event.Bid { item := item_id, price := price }]
             | none => [])) ∧
      (s.handle_auction_house_event iob event = s →
        BiddingEngine.handle_auction_house_event iob nvb item_id (some s) event
          = (none, []))) := by
  refine ⟨rfl, fun s => ⟨fun hne => ?_, fun heq => ?_⟩⟩
  · simp only [BiddingEngine.handle_auction_house_event, if_pos hne]
    cases h : (s.handle_auction_house_event iob event).state.get_next_bid nvb
        (s.handle_auction_house_event iob event).max_bid <;>
      simp [h]
  · simp [BiddingEngine.handle_auction_house_event, heq]

/-- Witness for C1: a first bid of 4 by another bidder on a fresh open state
with ceiling 10 changes the state, which is persisted, and one outbid at
the next valid price is emitted. -/
theorem handle_auction_house_event_spec_witness :
    BiddingEngine.handle_auction_house_event iob0 nvb0 itemA
        (some { max_bid := 10, state := AuctionState.default })
        (auction_house.EventDetails.Bid { bidder := Bidder.Other, price := 4 })
      = (some (AuctionBiddingState.handle_auction_house_event iob0
          { max_bid := 10, state := AuctionState.default }
          (auction_house.EventDetails.Bid
            { bidder := Bidder.Other, price := 4 })),
         match (AuctionBiddingState.handle_auction_house_event iob0
              { max_bid := 10, state := AuctionState.default }
              (auction_house.EventDetails.Bid
                { bidder := Bidder.Other, price := 4 })).state.get_next_bid
              nvb0
              (AuctionBiddingState.handle_auction_house_event iob0
                { max_bid := 10, state := AuctionState.default }
                (auction_house.EventDetails.Bid
                  { bidder := Bidder.Other, price := 4 })).max_bid with
         | some price => [Event.Bid { item := itemA, price := price }]
         | none => []) :=
  ((handle_auction_house_event_spec iob0 nvb0 itemA
      (auction_house.EventDetails.Bid
        { bidder := Bidder.Other, price := 4 })).2
    { max_bid := 10, state := AuctionState.default }).1 (by decide)

/-- Helper for C4 and C6: on an already-closed state every auction-house
event is a no-op of `handle_auction_event`. -/
theorem handle_auction_event_of_closed (iob : BidDetails → Amount → Bool)
    (s : AuctionState) (h : s.closed = true)
    (e : auction_house.EventDetails) :
    s.handle_auction_event iob e = s := by
  cases e <;> cases s <;> simp_all [AuctionState.handle_auction_event]

/-- Helper for C4: a closed state is a fixed point of any fold of
`handle_auction_event` over a sequence of events. -/
theorem foldl_handle_auction_event_of_closed
    (iob : BidDetails → Amount → Bool) (s : AuctionState)
    (h : s.closed = true) (events : List auction_house.EventDetails) :
    events.foldl (AuctionState.handle_auction_event iob) s = s := by
  induction events with
  | nil => rfl
  | cons e rest ih =>
      simp [List.foldl_cons, handle_auction_event_of_closed iob s h e, ih]

/-- C4: closedness is absorbing — starting from a closed state, after any
sequence of auction-house events the state is still closed, the highest bid
is unchanged by any of the bids, and `get_next_bid` is `none` for every
ceiling. -/
theorem closed_absorbing (iob : BidDetails → Amount → Bool)
    (nvb : BidDetails → Amount) (s : AuctionState) (h : s.closed = true)
    (events : List auction_house.EventDetails) (max_price : Amount) :
    ((events.foldl (AuctionState.handle_auction_event iob) s).closed
      = true) ∧
    ((events.foldl (AuctionState.handle_auction_event iob) s).higest_bid
      = s.higest_bid) ∧
    ((events.foldl (AuctionState.handle_auction_event iob) s).get_next_bid
        nvb max_price
      = none) := by
  rw [foldl_handle_auction_event_of_closed iob s h events]
  exact ⟨h, rfl, by simp [AuctionState.get_next_bid, h]⟩

/-- Witness for C4: a closed auction with a highest bid of 2 stays closed,
keeps its highest bid, and yields no next bid after two further events. -/
theorem closed_absorbing_witness :
    (([auction_house.EventDetails.Bid { bidder := Bidder.Other, price := 9 },
       auction_house.EventDetails.Closed].foldl
        (AuctionState.handle_auction_event iob0)
        { higest_bid := some { bidder := Bidder.Other, price := 2 },
          closed := true }).closed = true) ∧
    (([auction_house.EventDetails.Bid { bidder := Bidder.Other, price := 9 },
       auction_house.EventDetails.Closed].foldl
        (AuctionState.handle_auction_event iob0)
        { higest_bid := some { bidder := Bidder.Other, price := 2 },
          closed := true }).higest_bid
      = some { bidder := Bidder.Other, price := 2 }) ∧
    (([auction_house.EventDetails.Bid { bidder := Bidder.Other, price := 9 },
       auction_house.EventDetails.Closed].foldl
        (AuctionState.handle_auction_event iob0)
        { higest_bid := some { bidder := Bidder.Other, price := 2 },
          closed := true }).get_next_bid nvb0 100 = none) :=
  closed_absorbing iob0 nvb0
    { higest_bid := some { bidder := Bidder.Other, price := 2 },
      closed := true } rfl
    [auction_house.EventDetails.Bid { bidder := Bidder.Other, price := 9 },
     auction_house.EventDetails.Closed] 100

/-- C8: neither `handle_auction_house_event` nor `handle_max_bid_event`
ever emits a `UserError` event — every emitted event is a `Bid` or an
`AuctionError`, so `AlreadyClosed` and `TooLow` are unreachable. -/
theorem no_user_error_emitted (iob : BidDetails → Amount → Bool)
    (nvb : BidDetails → Amount) (item_id : ItemId)
    (old_state : Option AuctionBiddingState)
    (event : auction_house.EventDetails) (price : Amount) (u : UserError) :
    Event.UserError u ∉
      (BiddingEngine.handle_auction_house_event iob nvb item_id old_state
        event).2 ∧
    Event.UserError u ∉
      (BiddingEngine.handle_max_bid_event nvb item_id old_state price).2 := by
  constructor
  · cases old_state with
    | none => simp [BiddingEngine.handle_auction_house_event]
    | some s =>
        simp only [BiddingEngine.handle_auction_house_event]
        split
        · cases h : (s.handle_auction_house_event iob event).state.get_next_bid
              nvb (s.handle_auction_house_event iob event).max_bid <;>
            simp [h]
        · simp
  · simp only [BiddingEngine.handle_max_bid_event]
    split
    · cases h : ((old_state.getD
          AuctionBiddingState.default).handle_new_max_bid
            price).state.get_next_bid nvb
          ((old_state.getD
            AuctionBiddingState.default).handle_new_max_bid price).max_bid <;>
        simp [h]
    · simp

/-- C5: `handle_max_bid_event` persists a state or emits an event only if
the new max bid differs from the old one (defaulting an absent state) and
the current highest bidder is not `Sniper`; when `Sniper` already holds the
highest bid the result is `(none, [])`; and at most one event is emitted. -/
theorem handle_max_bid_event_spec (nvb : BidDetails → Amount)
    (item_id : ItemId) (old_state : Option AuctionBiddingState)
    (price : Amount) :
    ((BiddingEngine.handle_max_bid_event nvb item_id old_state price).1
        ≠ none ∨
     (BiddingEngine.handle_max_bid_event nvb item_id old_state price).2
        ≠ [] →
      price ≠ (old_state.getD AuctionBiddingState.default).max_bid ∧
      ∀ hb, (old_state.getD
          AuctionBiddingState.default).state.higest_bid = some hb →
        hb.bidder ≠ Bidder.Sniper) ∧
    (∀ hb, (old_state.getD
        AuctionBiddingState.default).state.higest_bid = some hb →
      hb.bidder = Bidder.Sniper →
      BiddingEngine.handle_max_bid_event nvb item_id old_state price
        = (none, [])) ∧
    (BiddingEngine.handle_max_bid_event nvb item_id old_state price).2.length
      ≤ 1 := by
  simp only [BiddingEngine.handle_max_bid_event]
  split
  case isTrue h =>
    refine ⟨fun _ => ⟨?_, ?_⟩, ?_, ?_⟩
    · intro hpe
      exact h.1 (by
        simp [AuctionBiddingState.handle_new_max_bid, hpe])
    · intro hb hhb
      have h2 := h.2
      rw [AuctionBiddingState.handle_new_max_bid, hhb] at h2
      simpa using h2
    · intro hb hhb hsniper
      exfalso
      have h2 := h.2
      rw [AuctionBiddingState.handle_new_max_bid, hhb] at h2
      simp [hsniper] at h2
    · cases hh : ((old_state.getD
          AuctionBiddingState.default).handle_new_max_bid
          price).state.get_next_bid nvb
          ((old_state.getD
            AuctionBiddingState.default).handle_new_max_bid price).max_bid <;>
        simp [hh]
  case isFalse h =>
    exact ⟨fun hcontra => by simp at hcontra, fun hb hhb hsniper => rfl,
      by simp⟩

/-- A concrete state for witnesses: `Sniper` holds the highest bid at
price 3 on an open auction with an authorized max bid of 5. -/
def sniperWinning : AuctionBiddingState :=
  { max_bid := 5,
    state := { higest_bid := some { bidder := Bidder.Sniper, price := 3 },
               closed := false } }

/-- Witness for C5: with `Sniper` already the highest bidder at price 3,
raising the max bid from 5 to 7 persists nothing and emits nothing. -/
theorem handle_max_bid_event_spec_witness :
    BiddingEngine.handle_max_bid_event nvb0 itemA (some sniperWinning) 7
      = (none, []) :=
  (handle_max_bid_event_spec nvb0 itemA (some sniperWinning) 7).2.1
    { bidder := Bidder.Sniper, price := 3 } rfl rfl

/-- Counterexample for C7: with no prior state and a new max price of 0,
`handle_max_bid_event` persists nothing and emits nothing — the new state
equals the implicit default (whose `max_bid` is already 0), so the claimed
`Some(state)` is not returned. -/
theorem first_max_bid_zero_not_persisted :
    BiddingEngine.handle_max_bid_event nvb0 itemA none 0 = (none, []) := by
  simp [BiddingEngine.handle_max_bid_event,
    AuctionBiddingState.handle_new_max_bid, AuctionBiddingState.default]

/-- C7 (amended): when no state exists for the item and the new max price
is nonzero, the first max-bid-set event creates the state — `max_bid` set
to the new price over the fresh default auction state — and emits the
opening bid of 0; a new max price of 0 leaves the default state implicit
and persists nothing. -/
theorem first_max_bid_creates_state (nvb : BidDetails → Amount)
    (item_id : ItemId) (price : Amount) (h : price ≠ 0) :
    BiddingEngine.handle_max_bid_event nvb item_id none price
      = (some { max_bid := price, state := AuctionState.default },
         [Event.Bid { item := item_id, price := 0 }]) := by
  simp only [BiddingEngine.handle_max_bid_event, Option.getD]
  rw [if_pos]
  · simp [AuctionBiddingState.handle_new_max_bid,
      AuctionBiddingState.default, AuctionState.default,
      AuctionState.get_next_bid]
  · constructor
    · simp [AuctionBiddingState.handle_new_max_bid,
        AuctionBiddingState.default]
      exact h
    · simp [AuctionBiddingState.handle_new_max_bid,
        AuctionBiddingState.default, AuctionState.default]

/-- Witness for C7 (amended): the spec's worked example — a first
`MaxBidSet` of 100 creates `{max_bid := 100, fresh state}` and emits the
opening bid of 0. -/
theorem first_max_bid_creates_state_witness :
    BiddingEngine.handle_max_bid_event nvb0 itemA none 100
      = (some { max_bid := 100, state := AuctionState.default },
         [Event.Bid { item := itemA, price := 0 }]) :=
  first_max_bid_creates_state nvb0 itemA 100 (by decide)

/-- Helper for C6: a state whose highest bid is already `b` is a fixed
point of `handle_auction_event` on the event `Bid b` — both branches of
the conditional produce the state itself. -/
theorem handle_auction_event_bid_fixed (iob : BidDetails → Amount → Bool)
    (t : AuctionState) (b : BidDetails) (h : t.higest_bid = some b) :
    t.handle_auction_event iob (auction_house.EventDetails.Bid b) = t := by
  simp only [AuctionState.handle_auction_event]
  split
  · cases t
    simp_all
  · rfl

/-- Helper for C6: `handle_auction_event` is idempotent — re-applying the
same auction-house event to the state it produced changes nothing. -/
theorem handle_auction_event_idem (iob : BidDetails → Amount → Bool)
    (s : AuctionState) (e : auction_house.EventDetails) :
    (s.handle_auction_event iob e).handle_auction_event iob e
      = s.handle_auction_event iob e := by
  cases e with
  | Closed => simp [AuctionState.handle_auction_event]
  | Bid b =>
      by_cases hc :
          (!s.closed
            && (match s.higest_bid with
                | some highest => iob highest b.price
                | none => true)) = true
      · have h1 : s.handle_auction_event iob
            (auction_house.EventDetails.Bid b)
            = { s with higest_bid := some b } := by
          simp [AuctionState.handle_auction_event, hc]
        rw [h1]
        exact handle_auction_event_bid_fixed iob _ b rfl
      · have h1 : s.handle_auction_event iob
            (auction_house.EventDetails.Bid b) = s := by
          simp only [AuctionState.handle_auction_event]
          rw [if_neg]
          simpa using hc
        rw [h1]
        exact h1

/-- Helper for C6: idempotence lifted to `AuctionBiddingState`. -/
theorem AuctionBiddingState.handle_auction_house_event_idem
    (iob : BidDetails → Amount → Bool) (s : AuctionBiddingState)
    (e : auction_house.EventDetails) :
    (s.handle_auction_house_event iob e).handle_auction_house_event iob e
      = s.handle_auction_house_event iob e := by
  simp [AuctionBiddingState.handle_auction_house_event,
    handle_auction_event_idem]

/-- The stored state for an item after `handle_event_with` runs
`handle_auction_house_event` once: the returned state when one is produced
(`if let Some(new_state) = new_state { store_tr(...) }`), otherwise
whatever was stored before. -/
def BiddingEngine.processStored (iob : BidDetails → Amount → Bool)
    (nvb : BidDetails → Amount) (item_id : ItemId)
    (old_state : Option AuctionBiddingState)
    (event : auction_house.EventDetails) : Option AuctionBiddingState :=
  BiddingEngine.storedAfter old_state
    (BiddingEngine.handle_auction_house_event iob nvb item_id old_state event)

/-- Counterexample for C6: for an unknown item the second application of
`handle_auction_house_event` is not a no-op — it emits the
`UnknownAuction` error again, contradicting the claim that re-processing
emits no event. (The final stored state is nevertheless unchanged.) -/
theorem redelivery_reemits_unknown_auction :
    (BiddingEngine.handle_auction_house_event iob0 nvb0 itemA
        (BiddingEngine.processStored iob0 nvb0 itemA none
          auction_house.EventDetails.Closed)
        auction_house.EventDetails.Closed).2
      = [Event.AuctionError (AuctionError.UnknownAuction itemA)] ∧
    [Event.AuctionError (AuctionError.UnknownAuction itemA)]
      ≠ ([] : List Event) := by
  exact ⟨rfl, by simp⟩

/-- C6 (amended): re-processing the same auction-house event against the
stored outcome of its first processing leaves the stored state unchanged;
when the first processing started from a present state the second
application is moreover a complete no-op — nothing persisted, nothing
emitted. (When the state is absent, nothing is ever persisted but the
`UnknownAuction` error is emitted each time.) -/
theorem redelivery_idempotent (iob : BidDetails → Amount → Bool)
    (nvb : BidDetails → Amount) (item_id : ItemId)
    (old_state : Option AuctionBiddingState)
    (event : auction_house.EventDetails) :
    BiddingEngine.processStored iob nvb item_id
        (BiddingEngine.processStored iob nvb item_id old_state event) event
      = BiddingEngine.processStored iob nvb item_id old_state event ∧
    (∀ s, old_state = some s →
      BiddingEngine.handle_auction_house_event iob nvb item_id
          (BiddingEngine.processStored iob nvb item_id old_state event) event
        = (none, [])) := by
  cases old_state with
  | none => exact ⟨rfl, fun s hs => Option.noConfusion hs⟩
  | some s =>
      by_cases h : s.handle_auction_house_event iob event = s
      · have hr1 : BiddingEngine.handle_auction_house_event iob nvb item_id
            (some s) event = (none, []) := by
          simp [BiddingEngine.handle_auction_house_event, h]
        have hst : BiddingEngine.processStored iob nvb item_id (some s) event
            = some s := by
          simp [BiddingEngine.processStored, hr1, BiddingEngine.storedAfter]
        refine ⟨?_, fun s' hs' => ?_⟩
        · rw [hst]
          simp [BiddingEngine.processStored, hr1, BiddingEngine.storedAfter]
        · rw [hst]
          exact hr1
      · have hr2 : BiddingEngine.handle_auction_house_event iob nvb item_id
            (some (s.handle_auction_house_event iob event)) event
            = (none, []) := by
          simp [BiddingEngine.handle_auction_house_event,
            AuctionBiddingState.handle_auction_house_event_idem]
        have hst : BiddingEngine.processStored iob nvb item_id (some s) event
            = some (s.handle_auction_house_event iob event) := by
          simp [BiddingEngine.processStored,
            BiddingEngine.handle_auction_house_event, h,
            BiddingEngine.storedAfter]
        refine ⟨?_, fun s' hs' => ?_⟩
        · rw [hst]
          simp [BiddingEngine.processStored, hr2, BiddingEngine.storedAfter]
        · rw [hst]
          exact hr2

/-- Witness for C6 (amended): after a first bid of 4 by another bidder is
processed from a known state, re-processing the same event persists
nothing and emits nothing. -/
theorem redelivery_idempotent_witness :
    BiddingEngine.handle_auction_house_event iob0 nvb0 itemA
        (BiddingEngine.processStored iob0 nvb0 itemA
          (some { max_bid := 10, state := AuctionState.default })
          (auction_house.EventDetails.Bid
            { bidder := Bidder.Other, price := 4 }))
        (auction_house.EventDetails.Bid
          { bidder := Bidder.Other, price := 4 })
      = (none, []) :=
  (redelivery_idempotent iob0 nvb0 itemA
      (some { max_bid := 10, state := AuctionState.default })
      (auction_house.EventDetails.Bid
        { bidder := Bidder.Other, price := 4 })).2
    { max_bid := 10, state := AuctionState.default } rfl

/-- C9: in one iteration of the `spawn_event_loop` body over a batch of one
event, the handler runs first; if it fails the iteration returns the error
with both the in-memory cursor and the stored progress unchanged, and only
on success are the cursor advanced to the event's offset and the progress
persisted. -/
theorem spawn_event_loop_body_spec {ε : Type}
    (f : event_log.EventDetails → Except ε Unit) (service_id : ServiceId)
    (e : EventRecord) (progress : Option Offset) (store : ProgressMap) :
    (∀ err, f e.details = Except.error err →
      spawnEventLoopBody f service_id [e] progress store
        = (some err, progress, store)) ∧
    (f e.details = Except.ok () →
      spawnEventLoopBody f service_id [e] progress store
        = (none, some e.id, progressStore service_id e.id store)) := by
  constructor
  · intro err herr
    simp [spawnEventLoopBody, herr]
  · intro hok
    simp [spawnEventLoopBody, hok]

/-- A concrete log record for witnesses: a bidding-engine event at
offset 7. -/
def rec0 : EventRecord :=
  { id := 7,
    details := event_log.EventDetails.BiddingEngine
      (Event.Bid { item := itemA, price := 1 }) }

/-- A concrete always-failing handler for witnesses. -/
def failingHandler : event_log.EventDetails → Except Unit Unit :=
  fun _ => Except.error ()

/-- Witness for C9: a failing handler leaves the cursor at `none` and the
progress store empty, and the error is returned. -/
theorem spawn_event_loop_body_spec_witness :
    spawnEventLoopBody failingHandler "svc" [rec0] none []
      = (some (), none, []) :=
  (spawn_event_loop_body_spec failingHandler "svc" rec0 none []).1 () rfl

/-- C10: `handle_event` on any event that is neither an `AuctionHouse`
event nor a `Ui::MaxBidSet` event — in particular the engine's own
`BiddingEngine` events read back from the log — leaves the transaction
untouched: no state is loaded (the read trace is unchanged) or stored, and
no events are written. -/
theorem handle_event_frame (iob : BidDetails → Amount → Bool)
    (nvb : BidDetails → Amount) (tr : TxState)
    (event : event_log.EventDetails)
    (h : ∀ item ev, event ≠ event_log.EventDetails.AuctionHouse item ev)
    (h2 : ∀ b, event ≠ event_log.EventDetails.Ui (ui.Event.MaxBidSet b)) :
    BiddingEngine.handle_event iob nvb tr event = tr := by
  cases event with
  | AuctionHouse item ev => exact absurd rfl (h item ev)
  | Ui u =>
      cases u with
      | MaxBidSet b => exact absurd rfl (h2 b)
  | BiddingEngine e => rfl

/-- A concrete empty transaction for witnesses. -/
def tx0 : TxState := { store := [], log := [], reads := [] }

/-- Witness for C10: a `BiddingEngine`-emitted event read back from the log
leaves the transaction exactly as it was. -/
theorem handle_event_frame_witness :
    BiddingEngine.handle_event iob0 nvb0 tx0
        (event_log.EventDetails.BiddingEngine
          (Event.UserError UserError.TooLow))
      = tx0 :=
  handle_event_frame iob0 nvb0 tx0
    (event_log.EventDetails.BiddingEngine (Event.UserError UserError.TooLow))
    (fun item ev => by simp) (fun b => by simp)

end Sniper
